import Mathlib

/-!
# Joplin tagger by substrings: model of `main.go` and its properties

The program talks to a REST backend.  The embedding keeps the control flow of
every function of `main.go`; the HTTP transport and the JSON decoder are
represented by their outcomes:

* an HTTP exchange is an `HttpResult` (transport error, or a status code with
  a body);
* a body is `unreadable` (`io.ReadAll` fails), `malformed` (`json.Unmarshal`
  of the body fails) or the decoded `value`;
* an element of `CollectionResponse.Items` is a `RawMessage`, given by what
  `json.Unmarshal` yields when it is decoded as a `Tag` and as a `Note`.

The backend is an arbitrary deterministic state machine (`Backend`), every
function returns the backend state it leaves and the list of exchanges it
made (`Run`).  The unbounded `for` loops of the paginated fetchers take a fuel
argument; `none` means the fuel ran out before the loop ended.  The rune
mapping `unicode.ToLower` behind `strings.ToLower` is an argument
(`unicodeToLower`) of the functions that lower-case.
-/

namespace JoplinTagger

/-! ## Data model (main.go, lines 24-41) -/

/-- The Go struct `Tag`. -/
structure Tag where
  ID : String
  Title : String
  deriving DecidableEq, Repr

/-- The Go struct `Note`. -/
structure Note where
  ID : String
  Title : String
  Body : String
  deriving DecidableEq, Repr

/-- One `json.RawMessage` of `CollectionResponse.Items`: the result of
`json.Unmarshal` into a `Tag` and into a `Note` (`none` when it returns an
error). -/
structure RawMessage where
  asTag : Option Tag
  asNote : Option Note
  deriving DecidableEq, Repr

/-- Body of an HTTP response, as seen through `io.ReadAll` followed by
`json.Unmarshal` into the type the caller expects. -/
inductive Body (α : Type) where
  | unreadable : Body α
  | malformed : Body α
  | value (a : α) : Body α
  deriving DecidableEq, Repr

/-- Outcome of `client.Get` / `client.Do`. -/
inductive HttpResult (α : Type) where
  | transportError : HttpResult α
  | response (StatusCode : Nat) (body : Body α) : HttpResult α
  deriving DecidableEq, Repr

/-- The three endpoints passed to `fetchData`:
`/notes?page=%d&fields=id,title,body`, `/tags?page=%d` and `/notes/%s/tags`
(the last one carries no page parameter). -/
inductive Endpoint where
  | notesPage (page : Nat) : Endpoint
  | tagsPage (page : Nat) : Endpoint
  | noteTags (noteID : String) : Endpoint
  deriving DecidableEq, Repr

/-- The errors built with `fmt.Errorf` in main.go, one constructor per
message. -/
inductive Error where
  | request (endpoint : Endpoint) : Error
  | apiStatus (code : Nat) (endpoint : Endpoint) : Error
  | readBody : Error
  | parseNotes (page : Nat) : Error
  | parseTags (page : Nat) : Error
  | parseNoteTags : Error
  | newRequest : Error
  | postExec : Error
  | attachStatus (code : Nat) : Error
  | newRequestCreate : Error
  | createExec : Error
  | createStatus (code : Nat) : Error
  | createRead : Error
  | createParse : Error
  deriving DecidableEq, Repr

/-- One HTTP exchange: the request that was issued and the answer received. -/
inductive Event where
  | get (endpoint : Endpoint) (r : HttpResult (List RawMessage)) : Event
  | createTag (title : String) (r : HttpResult Tag) : Event
  | associate (tagID noteID : String) (r : HttpResult Unit) : Event
  deriving DecidableEq, Repr

/-- The REST backend seen through the HTTP client: a deterministic state
machine giving the outcome of `client.Get` for an endpoint and of `client.Do`
for the two POST requests (`POST /tags` with a title,
`POST /tags/{tagID}/notes` with a note id). -/
structure Backend (σ : Type) where
  get : σ → Endpoint → HttpResult (List RawMessage) × σ
  postTag : σ → String → HttpResult Tag × σ
  postTagNote : σ → String → String → HttpResult Unit × σ

deriving instance DecidableEq for Except

/-- Result of running a piece of the program: its return value, the backend
state it leaves, and the exchanges it made, oldest first. -/
structure Run (σ α : Type) where
  result : α
  state : σ
  trace : List Event
  deriving DecidableEq

/-- Puts earlier exchanges in front of the trace of a later run. -/
def Run.after {σ α : Type} (earlier : List Event) (r : Run σ α) : Run σ α :=
  { r with trace := earlier ++ r.trace }

/-! ## Strings (package `strings`) -/

/-- Go `strings.ToLower`: the string mapped rune by rune through
`unicode.ToLower`.  Package `unicode` is outside the repository, so the rune
mapping is an argument of the model; the examples use `Char.toLower`, which
agrees with it on ASCII.  Both results of `ToLower` compared by `Contains`
are valid UTF-8 (`strings.Map` re-encodes every rune), so an occurrence as a
block of bytes is an occurrence as a block of runes. -/
def ToLower (unicodeToLower : Char → Char) (s : String) : String :=
  ⟨s.data.map unicodeToLower⟩

/-- Go `strings.HasPrefix` on rune lists. -/
def hasPrefixRunes : List Char → List Char → Bool
  | _, [] => true
  | [], _ :: _ => false
  | c :: s, d :: p => c == d && hasPrefixRunes s p

/-- Go `strings.Index` on rune lists: position of the first occurrence of
`substr` in `s`, or `-1`. -/
def indexRunes : List Char → List Char → Int
  | [], substr => if substr.isEmpty then 0 else -1
  | c :: s, substr =>
    if hasPrefixRunes (c :: s) substr then 0
    else
      let i := indexRunes s substr
      if i < 0 then -1 else i + 1

/-- Go `strings.Contains`: `Index(s, substr) >= 0`. -/
def Contains (s substr : String) : Bool := decide (0 ≤ indexRunes s.data substr.data)

/-! ## API functions -/

/-- The function `fetchData` (lines 55-79) applied to the outcome of
`client.Get`: the bytes of the body on status 200, an error otherwise.  The
bytes are kept as what `json.Unmarshal` will make of them (`none` when
it will fail). -/
def fetchData {α : Type} (endpoint : Endpoint) : HttpResult α → Except Error (Option α)
  | .transportError => .error (.request endpoint)
  | .response StatusCode body =>
    if StatusCode != 200 then .error (.apiStatus StatusCode endpoint)
    else
      match body with
      | .unreadable => .error .readBody
      | .malformed => .ok none
      | .value a => .ok (some a)

/-- The pagination loop shared, line for line, by `getAllNotes` (lines 87-113)
and `getAllTags` (lines 125-151); they differ in the endpoint, in the type the
items are decoded to, and in the message of the parse error. -/
def fetchPages {σ α : Type} (B : Backend σ) (endpoint : Nat → Endpoint)
    (unmarshal : RawMessage → Option α) (parseError : Nat → Error) :
    Nat → σ → Nat → List α → Option (Run σ (Except Error (List α)))
  | 0, _, _, _ => none
  | fuel + 1, s, page, acc =>
    let (r, s1) := B.get s (endpoint page)
    let ev := Event.get (endpoint page) r
    match fetchData (endpoint page) r with
    | .error err => some ⟨.error err, s1, [ev]⟩
    | .ok none => some ⟨.error (parseError page), s1, [ev]⟩
    | .ok (some items) =>
      if items.length == 0 then some ⟨.ok acc, s1, [ev]⟩
      else
        (fetchPages B endpoint unmarshal parseError fuel s1 (page + 1)
          (acc ++ items.filterMap unmarshal)).map (Run.after [ev])

/-- The function `getAllNotes` (lines 82-117). -/
def getAllNotes {σ : Type} (B : Backend σ) (fuel : Nat) (s : σ) :
    Option (Run σ (Except Error (List Note))) :=
  fetchPages B Endpoint.notesPage RawMessage.asNote Error.parseNotes fuel s 1 []

/-- The function `getAllTags` (lines 120-155). -/
def getAllTags {σ : Type} (B : Backend σ) (fuel : Nat) (s : σ) :
    Option (Run σ (Except Error (List Tag))) :=
  fetchPages B Endpoint.tagsPage RawMessage.asTag Error.parseTags fuel s 1 []

/-- The response handling of `getNoteTags` (lines 161-179); the
`map[string]bool` it builds is the list of its keys. -/
def getNoteTagsResult (noteID : String) (r : HttpResult (List RawMessage)) :
    Except Error (List String) :=
  match fetchData (.noteTags noteID) r with
  | .error err => .error err
  | .ok none => .error .parseNoteTags
  | .ok (some items) => .ok ((items.filterMap RawMessage.asTag).map Tag.ID)

/-- The function `getNoteTags` (lines 157-180): a single GET of
`/notes/%s/tags`. -/
def getNoteTags {σ : Type} (B : Backend σ) (s : σ) (noteID : String) :
    Run σ (Except Error (List String)) :=
  let (r, s1) := B.get s (.noteTags noteID)
  ⟨getNoteTagsResult noteID r, s1, [Event.get (.noteTags noteID) r]⟩

/-- The status handling of `associateTag` (lines 196-209): `none` is the Go
`nil` error. -/
def associateTagResult : HttpResult Unit → Option Error
  | .transportError => some .postExec
  | .response StatusCode _ =>
    if StatusCode != 200 then
      if StatusCode == 409 then none
      else some (.attachStatus StatusCode)
    else none

/-- The constant `JOPLIN_API_BASE` (line 19). -/
def JOPLIN_API_BASE : String := "http://localhost:41184"

/-- The URL built on line 184 of `associateTag`. -/
def associateTagURL (JOPLIN_TOKEN tagID : String) : String :=
  JOPLIN_API_BASE ++ "/tags/" ++ tagID ++ "/notes?token=" ++ JOPLIN_TOKEN

/-- The URL built on line 214 of `createTag`. -/
def createTagURL (JOPLIN_TOKEN : String) : String :=
  JOPLIN_API_BASE ++ "/tags?token=" ++ JOPLIN_TOKEN

/-- The function `associateTag` (lines 183-210).  The call `http.NewRequest`
(lines 189-192) gets the constant method "POST", so it fails exactly when the
URL does not parse; package `net/url` is outside the repository and
`urlParses` stands for its verdict.  When it fails the function returns an
error and nothing is sent. -/
def associateTag {σ : Type} (urlParses : String → Bool) (JOPLIN_TOKEN : String)
    (B : Backend σ) (s : σ) (noteID tagID : String) : Run σ (Option Error) :=
  if !urlParses (associateTagURL JOPLIN_TOKEN tagID) then ⟨some .newRequest, s, []⟩
  else
    let (r, s1) := B.postTagNote s tagID noteID
    ⟨associateTagResult r, s1, [Event.associate tagID noteID r]⟩

/-- The response handling of `createTag` (lines 226-246). -/
def createTagResult : HttpResult Tag → Except Error String
  | .transportError => .error .createExec
  | .response StatusCode body =>
    if StatusCode != 200 then .error (.createStatus StatusCode)
    else
      match body with
      | .unreadable => .error .createRead
      | .malformed => .error .createParse
      | .value newTag => .ok newTag.ID

/-- The function `createTag` (lines 213-247), with the error branch of
`http.NewRequest` (lines 219-222) as in `associateTag`. -/
def createTag {σ : Type} (urlParses : String → Bool) (JOPLIN_TOKEN : String)
    (B : Backend σ) (s : σ) (title : String) : Run σ (Except Error String) :=
  if !urlParses (createTagURL JOPLIN_TOKEN) then ⟨.error .newRequestCreate, s, []⟩
  else
    let (r, s1) := B.postTag s title
    ⟨createTagResult r, s1, [Event.createTag title r]⟩

/-! ## Observing a paginated endpoint -/

/-- Backend state after it has answered, in this order, the GET requests for
the `n` pages `first`, `first + 1`, ... of a paginated endpoint. -/
def stateAfterPages {σ : Type} (B : Backend σ) (endpoint : Nat → Endpoint) (s : σ)
    (first : Nat) : Nat → σ
  | 0 => s
  | n + 1 => (B.get (stateAfterPages B endpoint s first n) (endpoint (first + n))).2

/-- The answer of the backend to the request for page `page` (counted
from 1), the pages before it having been requested in order from state `s`. -/
def pageResponse {σ : Type} (B : Backend σ) (endpoint : Nat → Endpoint) (s : σ)
    (page : Nat) : HttpResult (List RawMessage) :=
  (B.get (stateAfterPages B endpoint s 1 (page - 1)) (endpoint page)).1

/-- The exchanges for pages `1..k` of a paginated endpoint, in page order. -/
def pageEvents {σ : Type} (B : Backend σ) (endpoint : Nat → Endpoint) (s : σ)
    (k : Nat) : List Event :=
  (List.range' 1 k).map fun page => Event.get (endpoint page) (pageResponse B endpoint s page)

/-! ## A paginating backend -/

/-- Contents of the paginating backend: the page size of its collection
endpoints, its tags, its notes, the note-tag associations as pairs
`(noteID, tagID)` in the order they were made, and the number of tags it has
created. -/
structure Store where
  pageSize : Nat
  tags : List Tag
  notes : List Note
  links : List (String × String)
  created : Nat
  deriving DecidableEq, Repr

/-- Page `page` (counted from 1) of a collection cut in pages of `pageSize`
items. -/
def pageOf {α : Type} (pageSize : Nat) (xs : List α) (page : Nat) : List α :=
  (xs.drop ((page - 1) * pageSize)).take pageSize

/-- The JSON object of a tag; decoded as a `Note` it has an empty body. -/
def tagItem (t : Tag) : RawMessage := ⟨some t, some ⟨t.ID, t.Title, ""⟩⟩

/-- The JSON object of a note; decoded as a `Tag` it loses its body. -/
def noteItem (n : Note) : RawMessage := ⟨some ⟨n.ID, n.Title⟩, some n⟩

/-- The tags attached to a note, in the order they were attached. -/
def Store.tagsOfNote (st : Store) (noteID : String) : List Tag :=
  (st.links.filter fun l => l.1 == noteID).filterMap fun l =>
    st.tags.find? fun t => t.ID == l.2

/-- Modelled from the spec: the REST backend of section 6, which is not part
of the repository.  The three list endpoints are paginated and answer with the
envelope of the items of the requested page (page 1 when the request names no
page); `POST /tags` adds a tag with a new id and answers with it;
`POST /tags/{tagID}/notes` attaches the tag and answers 200, and when the tag
is already on the note it changes nothing and answers `reattachStatus`: 409
in the table of section 6, 200 for a backend on which attaching twice is a
success. -/
def restBackend (reattachStatus : Nat) : Backend Store where
  get st endpoint :=
    match endpoint with
    | .notesPage page =>
      (.response 200 (.value ((pageOf st.pageSize st.notes page).map noteItem)), st)
    | .tagsPage page =>
      (.response 200 (.value ((pageOf st.pageSize st.tags page).map tagItem)), st)
    | .noteTags noteID =>
      (.response 200 (.value ((pageOf st.pageSize (st.tagsOfNote noteID) 1).map tagItem)), st)
  postTag st title :=
    let newTag : Tag := ⟨"new" ++ toString st.created, title⟩
    (.response 200 (.value newTag),
      { st with tags := st.tags ++ [newTag], created := st.created + 1 })
  postTagNote st tagID noteID :=
    if st.links.contains (noteID, tagID) then (.response reattachStatus (.value ()), st)
    else (.response 200 (.value ()), { st with links := st.links ++ [(noteID, tagID)] })

/-- A backend without state that answers from fixed tables: the pages of the
notes and of the tags collection (an empty page after the last listed one),
one answer per note for its tags, and fixed answers to the two POST
requests. -/
def scriptedBackend (notesPages tagsPages : List (HttpResult (List RawMessage)))
    (noteTags : String → HttpResult (List RawMessage)) (created : HttpResult Tag)
    (attached : String → HttpResult Unit) : Backend Unit where
  get _ endpoint :=
    match endpoint with
    | .notesPage page => (notesPages.getD (page - 1) (.response 200 (.value [])), ())
    | .tagsPage page => (tagsPages.getD (page - 1) (.response 200 (.value [])), ())
    | .noteTags noteID => (noteTags noteID, ())
  postTag _ _ := (created, ())
  postTagNote _ _ noteID := (attached noteID, ())

/-- Whether a GET request fails in `fetchData` before the body is read: a
transport error, or a status other than 200. -/
def requestFails {α : Type} : HttpResult α → Bool
  | .transportError => true
  | .response StatusCode _ => StatusCode != 200

/-- A URL written with letters, digits and `: / ? = . - _` only.  Such a URL
parses, so this is a verdict of `net/url` that is right on the URLs of the
examples below (their ids and tokens are plain words). -/
def plainURL (url : String) : Bool :=
  url.data.all fun c =>
    c.isAlphanum || c == ':' || c == '/' || c == '?' || c == '=' || c == '.' || c == '-' ||
      c == '_'

/-- The end-to-end scenario of the specification: no tag yet, three notes, of
which the first and the third hold both "deadline" and "project x". -/
def scenarioStore : Store :=
  ⟨10, [],
    [⟨"1", "first", "Deadline: Project X ships Friday"⟩, ⟨"2", "second", "Grocery list"⟩,
     ⟨"3", "third", "project x deadline extended"⟩],
    [], 0⟩

/-- A backend that serves one item per page, with two tags and one note that
already carries the tag "other". -/
def crowdedStore : Store :=
  ⟨1, [⟨"a", "other"⟩, ⟨"t", "urgent"⟩], [⟨"n1", "note", "the deadline"⟩], [("n1", "a")], 0⟩

/-- A backend whose first tag titled "urgent" has the empty string as id (its
JSON object carries no id), followed by a second tag with the same title;
no notes. -/
def emptyIdStore : Store :=
  ⟨10, [⟨"", "urgent"⟩, ⟨"t2", "urgent"⟩], [], [], 0⟩

/-- The store `crowdedStore` once the tag "urgent" is on its note as well: the
note's tags fill two pages. -/
def crowdedStoreTagged : Store :=
  ⟨1, [⟨"a", "other"⟩, ⟨"t", "urgent"⟩], [⟨"n1", "note", "the deadline"⟩],
    [("n1", "a"), ("n1", "t")], 0⟩

/-- A backend with the tag "urgent" and one matching note, which answers the
membership check of the note with an empty page and the association request
with status 409. -/
def conflictBackend : Backend Unit :=
  scriptedBackend [.response 200 (.value [noteItem ⟨"n1", "note", "the deadline"⟩])]
    [.response 200 (.value [tagItem ⟨"t", "urgent"⟩])]
    (fun _ => .response 200 (.value [])) .transportError (fun _ => .response 409 (.value ()))

/-! ## Main logic (lines 251-353) -/

/-- The inner loop of the scan (lines 317-324): `matchesAllSubstrings` after
the loop over `containsSubstrings`, with its `break`. -/
def matchesAllSubstrings (unicodeToLower : Char → Char) (noteBodyLower : String) :
    List String → Bool
  | [] => true
  | sub :: rest =>
    if !Contains noteBodyLower (ToLower unicodeToLower sub) then false
    else matchesAllSubstrings unicodeToLower noteBodyLower rest

/-- The search loop of lines 282-290: `targetTagID` after the loop (it stays
`""` when no title is equal to `tagName`). -/
def findTargetTagID (tagName : String) : List Tag → String
  | [] => ""
  | tag :: rest => if tag.Title == tagName then tag.ID else findTargetTagID tagName rest

/-- Lines 282-300 of `main`: search of the tag, creation when `targetTagID`
is still `""`.  An error is the `log.Fatalf` of line 297. -/
def resolveTargetTag {σ : Type} (urlParses : String → Bool) (JOPLIN_TOKEN : String)
    (B : Backend σ) (s : σ) (tagName : String) (allTags : List Tag) :
    Run σ (Except Error String) :=
  let targetTagID := findTargetTagID tagName allTags
  if targetTagID == "" then createTag urlParses JOPLIN_TOKEN B s tagName
  else ⟨.ok targetTagID, s, []⟩

/-- Lines 312-350 of `main`: the scan of `allNotes`; the result is
`totalTagsAdded`. -/
def scanNotes {σ : Type} (unicodeToLower : Char → Char) (urlParses : String → Bool)
    (JOPLIN_TOKEN : String) (B : Backend σ) (targetTagID : String)
    (containsSubstrings : List String) : List Note → σ → Nat → Run σ Nat
  | [], s, totalTagsAdded => ⟨totalTagsAdded, s, []⟩
  | note :: rest, s, totalTagsAdded =>
    let noteBodyLower := ToLower unicodeToLower note.Body
    if matchesAllSubstrings unicodeToLower noteBodyLower containsSubstrings then
      let check := getNoteTags B s note.ID
      match check.result with
      | .error _ =>
        (scanNotes unicodeToLower urlParses JOPLIN_TOKEN B targetTagID containsSubstrings
          rest check.state totalTagsAdded).after check.trace
      | .ok existingTagIDs =>
        if existingTagIDs.contains targetTagID then
          (scanNotes unicodeToLower urlParses JOPLIN_TOKEN B targetTagID containsSubstrings
            rest check.state totalTagsAdded).after check.trace
        else
          let attach :=
            associateTag urlParses JOPLIN_TOKEN B check.state note.ID targetTagID
          match attach.result with
          | some _ =>
            (scanNotes unicodeToLower urlParses JOPLIN_TOKEN B targetTagID
              containsSubstrings rest attach.state
              totalTagsAdded).after (check.trace ++ attach.trace)
          | none =>
            (scanNotes unicodeToLower urlParses JOPLIN_TOKEN B targetTagID
              containsSubstrings rest attach.state
              (totalTagsAdded + 1)).after (check.trace ++ attach.trace)
    else
      scanNotes unicodeToLower urlParses JOPLIN_TOKEN B targetTagID containsSubstrings rest s
        totalTagsAdded

/-- How `main` ends: one of its fatal exits, or the final count. -/
inductive Exit where
  | tokenUnset : Exit
  | usage : Exit
  | tagsFailed (err : Error) : Exit
  | createFailed (err : Error) : Exit
  | notesFailed (err : Error) : Exit
  | done (totalTagsAdded : Nat) : Exit
  deriving DecidableEq, Repr

/-- The function `main` (lines 251-353); the token constant and the two
command-line flags are arguments, `fuel` bounds the iterations of each of the
two pagination loops. -/
def main {σ : Type} (unicodeToLower : Char → Char) (urlParses : String → Bool)
    (B : Backend σ) (JOPLIN_TOKEN tagName : String) (containsSubstrings : List String)
    (fuel : Nat) (s : σ) : Option (Run σ Exit) :=
  if JOPLIN_TOKEN == "YOUR_JOPLIN_API_TOKEN" then some ⟨.tokenUnset, s, []⟩
  else if tagName == "" || containsSubstrings.length == 0 then some ⟨.usage, s, []⟩
  else
    match getAllTags B fuel s with
    | none => none
    | some tagsRun =>
      match tagsRun.result with
      | .error err => some ⟨.tagsFailed err, tagsRun.state, tagsRun.trace⟩
      | .ok allTags =>
        let resolve :=
          resolveTargetTag urlParses JOPLIN_TOKEN B tagsRun.state tagName allTags
        match resolve.result with
        | .error err =>
          some ⟨.createFailed err, resolve.state, tagsRun.trace ++ resolve.trace⟩
        | .ok targetTagID =>
          match getAllNotes B fuel resolve.state with
          | none => none
          | some notesRun =>
            match notesRun.result with
            | .error err =>
              some ⟨.notesFailed err, notesRun.state,
                tagsRun.trace ++ resolve.trace ++ notesRun.trace⟩
            | .ok allNotes =>
              let scan :=
                scanNotes unicodeToLower urlParses JOPLIN_TOKEN B targetTagID
                  containsSubstrings allNotes notesRun.state 0
              some ⟨.done scan.result, scan.state,
                tagsRun.trace ++ resolve.trace ++ notesRun.trace ++ scan.trace⟩

/-! ## Shapes of traces -/

/-- The ids of the tags that decode in a list of raw items: the key set
`getNoteTags` builds from a note's tags. -/
def tagIDs (items : List RawMessage) : List String :=
  (items.filterMap RawMessage.asTag).map Tag.ID

/-- The note whose tags a membership check asks for; `none` for any other
exchange. -/
def checkedNote : Event → Option String
  | .get (.noteTags noteID) _ => some noteID
  | _ => none

/-- Whether an exchange is an association request. -/
def isAssociate : Event → Bool
  | .associate _ _ _ => true
  | _ => false

/-- Whether an exchange is an association request to which `associateTag`
returned no error. -/
def associatedWithoutError : Event → Bool
  | .associate _ _ r => (associateTagResult r).isNone
  | _ => false

/-- Whether an exchange is an association request answered with status 200. -/
def associatedWithStatusOK : Event → Bool
  | .associate _ _ (.response StatusCode _) => StatusCode == 200
  | _ => false

/-- In a trace, every association request comes right after a membership
check of the same note that was answered with a well-formed page not holding
the tag being attached. -/
def CheckedBeforeAttach (trace : List Event) : Prop :=
  ∀ before tagID noteID r after, trace = before ++ Event.associate tagID noteID r :: after →
    ∃ earlier items,
      before = earlier ++ [Event.get (.noteTags noteID) (.response 200 (.value items))] ∧
      tagID ∉ tagIDs items

/-- What the scan may exchange for one entry of the note list: nothing when
the body does not match; otherwise a membership check alone (when it failed,
when its answer holds the target tag, or when the association request could
not be built), or a membership check answered with a well-formed page that
lacks the target tag, followed by one association request for that note and
the target tag. -/
def NoteSegment (unicodeToLower : Char → Char) (urlParses : String → Bool)
    (JOPLIN_TOKEN targetTagID : String) (containsSubstrings : List String) (note : Note)
    (segment : List Event) : Prop :=
  if matchesAllSubstrings unicodeToLower (ToLower unicodeToLower note.Body)
      containsSubstrings then
    (∃ r, segment = [Event.get (.noteTags note.ID) r] ∧
      ∀ items, r = .response 200 (.value items) →
        targetTagID ∈ tagIDs items ∨
          urlParses (associateTagURL JOPLIN_TOKEN targetTagID) = false) ∨
    (∃ items a,
      segment = [Event.get (.noteTags note.ID) (.response 200 (.value items)),
        Event.associate targetTagID note.ID a] ∧
      targetTagID ∉ tagIDs items ∧
      urlParses (associateTagURL JOPLIN_TOKEN targetTagID) = true)
  else segment = []

/-- The phases of `main` before the scan, started in backend state `s`:
`getAllTags` returns a tag list, in which `targetTagID` is resolved (found,
or created), then `getAllNotes` returns `allNotes`.  The exchanges of these
phases are `earlier`, the backend state they leave is `s0`. -/
def ReachesScan {σ : Type} (urlParses : String → Bool) (B : Backend σ)
    (JOPLIN_TOKEN tagName : String) (fuel : Nat) (s : σ) (targetTagID : String)
    (allNotes : List Note) (earlier : List Event) (s0 : σ) : Prop :=
  ∃ tagsRun allTags notesRun,
    getAllTags B fuel s = some tagsRun ∧ tagsRun.result = .ok allTags ∧
    (resolveTargetTag urlParses JOPLIN_TOKEN B tagsRun.state tagName allTags).result =
      .ok targetTagID ∧
    getAllNotes B fuel
        (resolveTargetTag urlParses JOPLIN_TOKEN B tagsRun.state tagName allTags).state =
      some notesRun ∧
    notesRun.result = .ok allNotes ∧
    earlier =
      tagsRun.trace ++
        (resolveTargetTag urlParses JOPLIN_TOKEN B tagsRun.state tagName allTags).trace ++
        notesRun.trace ∧
    s0 = notesRun.state

/-! ## The match engine -/

theorem hasPrefixRunes_iff (s p : List Char) : hasPrefixRunes s p = true ↔ p <+: s := by
  induction s generalizing p with
  | nil => cases p <;> simp [hasPrefixRunes]
  | cons c s ih =>
    cases p with
    | nil => simp [hasPrefixRunes]
    | cons d p =>
      simp [hasPrefixRunes, ih, List.cons_prefix_cons]
      intro _
      exact eq_comm

theorem indexRunes_nonneg_iff (s p : List Char) : 0 ≤ indexRunes s p ↔ p <:+: s := by
  induction s with
  | nil =>
    cases p <;> simp [indexRunes]
  | cons c s ih =>
    simp only [indexRunes]
    by_cases h : hasPrefixRunes (c :: s) p = true
    · simp only [h, if_true, le_refl, true_iff]
      exact ((hasPrefixRunes_iff _ _).1 h).isInfix
    · simp only [h]
      have hp : ¬ p <+: c :: s := fun hh => h ((hasPrefixRunes_iff _ _).2 hh)
      rw [List.infix_cons_iff]
      constructor
      · intro h0
        right
        apply ih.1
        by_contra hn
        simp only [Bool.false_eq_true, if_false] at h0
        rw [if_pos (by omega)] at h0
        omega
      · rintro (h1 | h1)
        · exact absurd h1 hp
        · have := ih.2 h1
          simp only [Bool.false_eq_true, if_false]
          rw [if_neg (by omega)]
          omega

/-- The call `strings.Contains(s, substr)` is true exactly when the runes of
`substr` are a contiguous block of the runes of `s`. -/
theorem Contains_iff (s substr : String) :
    Contains s substr = true ↔ ∃ before after, s.data = before ++ substr.data ++ after := by
  unfold Contains
  rw [decide_eq_true_iff, indexRunes_nonneg_iff]
  constructor
  · rintro ⟨before, after, h⟩
    exact ⟨before, after, h.symm⟩
  · rintro ⟨before, after, h⟩
    exact ⟨before, after, h.symm⟩

theorem matchesAllSubstrings_iff (unicodeToLower : Char → Char) (noteBodyLower : String)
    (subs : List String) :
    matchesAllSubstrings unicodeToLower noteBodyLower subs = true ↔
      ∀ sub ∈ subs, Contains noteBodyLower (ToLower unicodeToLower sub) = true := by
  induction subs with
  | nil => simp [matchesAllSubstrings]
  | cons sub rest ih =>
    simp only [matchesAllSubstrings, List.mem_cons, forall_eq_or_imp]
    cases h : Contains noteBodyLower (ToLower unicodeToLower sub) <;> simp [ih]

/-- Claim C1: for every note body and every list of required substrings (in
particular every non-empty one), the match computed by the scan loop is true
if and only if every required substring, lower-cased, occurs as a contiguous
block of the lower-cased body; the body "Project X deadline is Friday" matches
["deadline", "project x"] and does not match ["deadline", "budget"]. -/
theorem C1_match_iff_all_substrings (unicodeToLower : Char → Char) :
    (∀ (body : String) (containsSubstrings : List String),
      matchesAllSubstrings unicodeToLower (ToLower unicodeToLower body) containsSubstrings
          = true ↔
        ∀ sub ∈ containsSubstrings,
          ∃ before after,
            (ToLower unicodeToLower body).data =
              before ++ (ToLower unicodeToLower sub).data ++ after) ∧
    matchesAllSubstrings Char.toLower (ToLower Char.toLower "Project X deadline is Friday")
      ["deadline", "project x"] = true ∧
    matchesAllSubstrings Char.toLower (ToLower Char.toLower "Project X deadline is Friday")
      ["deadline", "budget"] = false := by
  refine ⟨?_, by set_option maxRecDepth 8000 in decide,
    by set_option maxRecDepth 8000 in decide⟩
  intro body subs
  rw [matchesAllSubstrings_iff]
  exact forall₂_congr fun sub _ => Contains_iff _ _

/-! ## The paginated fetchers -/

theorem stateAfterPages_shift {σ : Type} (B : Backend σ) (endpoint : Nat → Endpoint) (s : σ)
    (first n : Nat) :
    stateAfterPages B endpoint (B.get s (endpoint first)).2 (first + 1) n =
      stateAfterPages B endpoint s first (n + 1) := by
  induction n with
  | zero => rfl
  | succ n ih =>
    rw [stateAfterPages, ih]
    have : first + 1 + n = first + (n + 1) := by omega
    rw [this]
    rfl

/-- The loop of `fetchPages`, started at page `first` with `acc` collected:
when the next `m` answers are non-empty pages and the one after is an empty
page, the loop makes `m + 1` requests and returns `acc` followed by the
decodable items of the `m` pages. -/
theorem fetchPages_until_empty {σ α : Type} (B : Backend σ) (endpoint : Nat → Endpoint)
    (unmarshal : RawMessage → Option α) (parseError : Nat → Error)
    (items : Nat → List RawMessage) (m : Nat) :
    ∀ (s : σ) (first : Nat) (acc : List α) (fuel : Nat),
      (∀ n, n < m →
        (B.get (stateAfterPages B endpoint s first n) (endpoint (first + n))).1 =
          .response 200 (.value (items (first + n))) ∧ items (first + n) ≠ []) →
      (B.get (stateAfterPages B endpoint s first m) (endpoint (first + m))).1 =
        .response 200 (.value []) →
      m + 1 ≤ fuel →
      fetchPages B endpoint unmarshal parseError fuel s first acc =
        some ⟨.ok (acc ++ (List.range' first m).flatMap fun page =>
                (items page).filterMap unmarshal),
          stateAfterPages B endpoint s first (m + 1),
          (List.range m.succ).map fun n =>
            Event.get (endpoint (first + n))
              (B.get (stateAfterPages B endpoint s first n) (endpoint (first + n))).1⟩ := by
  induction m with
  | zero =>
    intro s first acc fuel _ hlast hfuel
    obtain ⟨fuel, rfl⟩ : ∃ f, fuel = f + 1 := ⟨fuel - 1, by omega⟩
    simp only [stateAfterPages, Nat.add_zero] at hlast
    simp [fetchPages, hlast, fetchData, stateAfterPages, List.range_succ]
  | succ m ih =>
    intro s first acc fuel hfull hlast hfuel
    obtain ⟨fuel, rfl⟩ : ∃ f, fuel = f + 1 := ⟨fuel - 1, by omega⟩
    have h0 := hfull 0 (by omega)
    simp only [stateAfterPages, Nat.add_zero] at h0
    obtain ⟨h0r, h0ne⟩ := h0
    have hlen : (items first).length ≠ 0 := by
      intro h; exact h0ne (List.length_eq_zero.1 h)
    have hrec := ih (B.get s (endpoint first)).2 (first + 1)
      (acc ++ (items first).filterMap unmarshal) fuel
      (by
        intro n hn
        have := hfull (n + 1) (by omega)
        rw [stateAfterPages_shift]
        have e : first + 1 + n = first + (n + 1) := by omega
        rw [e]; exact this)
      (by
        rw [stateAfterPages_shift]
        have e : first + 1 + m = first + (m + 1) := by omega
        rw [e]; exact hlast)
      (by omega)
    simp only [fetchPages, h0r, fetchData]
    simp only [hlen, bne_self_eq_false, Bool.false_eq_true, if_false, beq_iff_eq]
    rw [hrec]
    simp only [Option.map_some', Run.after, stateAfterPages_shift]
    congr 2
    · congr 1
      rw [List.range'_succ, List.flatMap_cons, List.append_assoc]
    · rw [List.range_succ_eq_map (m + 1), List.map_cons, List.map_map]
      simp only [stateAfterPages, Nat.add_zero, List.singleton_append, h0r]
      congr 1
      apply List.map_congr_left
      intro n _
      simp only [Function.comp, stateAfterPages_shift]
      have e : first + 1 + n = first + (n + 1) := by omega
      rw [e]
      rfl

theorem pageEvents_eq {σ : Type} (B : Backend σ) (endpoint : Nat → Endpoint) (s : σ)
    (k : Nat) :
    pageEvents B endpoint s k =
      (List.range k).map fun n =>
        Event.get (endpoint (1 + n))
          (B.get (stateAfterPages B endpoint s 1 n) (endpoint (1 + n))).1 := by
  unfold pageEvents pageResponse
  rw [List.range'_eq_map_range, List.map_map]
  apply List.map_congr_left
  intro n _
  simp [Function.comp]

theorem pageResponse_succ {σ : Type} (B : Backend σ) (endpoint : Nat → Endpoint) (s : σ)
    (n : Nat) :
    pageResponse B endpoint s (n + 1) =
      (B.get (stateAfterPages B endpoint s 1 n) (endpoint (1 + n))).1 := by
  unfold pageResponse
  rw [Nat.add_sub_cancel, Nat.add_comm n 1]

/-- Pagination of `fetchPages` from page 1: pages `1..m` non-empty and page
`m + 1` empty give `m + 1` requests and the decodable items of pages `1..m`. -/
theorem fetchPages_pagination {σ α : Type} (B : Backend σ) (endpoint : Nat → Endpoint)
    (unmarshal : RawMessage → Option α) (parseError : Nat → Error)
    (s : σ) (m : Nat) (items : Nat → List RawMessage) (fuel : Nat) (hfuel : m + 1 ≤ fuel)
    (hfull : ∀ page, 1 ≤ page → page ≤ m →
      pageResponse B endpoint s page = .response 200 (.value (items page)) ∧ items page ≠ [])
    (hempty : pageResponse B endpoint s (m + 1) = .response 200 (.value [])) :
    fetchPages B endpoint unmarshal parseError fuel s 1 [] =
      some ⟨.ok ((List.range' 1 m).flatMap fun page => (items page).filterMap unmarshal),
        stateAfterPages B endpoint s 1 (m + 1), pageEvents B endpoint s (m + 1)⟩ := by
  rw [pageEvents_eq]
  have h := fetchPages_until_empty B endpoint unmarshal parseError items m s 1 [] fuel
    (by
      intro n hn
      rw [← pageResponse_succ]
      have := hfull (n + 1) (by omega) (by omega)
      rw [Nat.add_comm 1 n]
      exact this)
    (by rw [← pageResponse_succ]; exact hempty) hfuel
  rw [h]
  simp


/-- Claim C2: when every request succeeds, pages `1..m` are non-empty and page
`k = m + 1` is the first page with zero items, `getAllNotes` and `getAllTags`
(given fuel for `k` iterations) issue exactly the `k` requests for pages
`1, 2, ..., k` in that order and return the items of pages `1..k-1` that
decode, in page order and item order; an item that does not decode is dropped
alone, and a non-empty page is never terminal, whatever its items decode to. -/
theorem C2_pagination_until_first_empty_page {σ : Type} (B : Backend σ) (s : σ) (m : Nat)
    (items : Nat → List RawMessage) (fuel : Nat) (hfuel : m + 1 ≤ fuel) :
    ((∀ page, 1 ≤ page → page ≤ m →
        pageResponse B Endpoint.notesPage s page = .response 200 (.value (items page)) ∧
          items page ≠ []) →
      pageResponse B Endpoint.notesPage s (m + 1) = .response 200 (.value []) →
      getAllNotes B fuel s =
        some ⟨.ok ((List.range' 1 m).flatMap fun page =>
            (items page).filterMap RawMessage.asNote),
          stateAfterPages B Endpoint.notesPage s 1 (m + 1),
          pageEvents B Endpoint.notesPage s (m + 1)⟩) ∧
    ((∀ page, 1 ≤ page → page ≤ m →
        pageResponse B Endpoint.tagsPage s page = .response 200 (.value (items page)) ∧
          items page ≠ []) →
      pageResponse B Endpoint.tagsPage s (m + 1) = .response 200 (.value []) →
      getAllTags B fuel s =
        some ⟨.ok ((List.range' 1 m).flatMap fun page =>
            (items page).filterMap RawMessage.asTag),
          stateAfterPages B Endpoint.tagsPage s 1 (m + 1),
          pageEvents B Endpoint.tagsPage s (m + 1)⟩) :=
  ⟨fun hfull hempty => fetchPages_pagination B _ _ _ s m items fuel hfuel hfull hempty,
   fun hfull hempty => fetchPages_pagination B _ _ _ s m items fuel hfuel hfull hempty⟩

/-- Witness of C2: two pages of notes, the first holding an item that does not
decode and the second holding only such an item, then the empty page; one page
of tags, then the empty page. -/
theorem C2_pagination_witness :
    getAllNotes
        (scriptedBackend
          [.response 200 (.value [noteItem ⟨"n1", "a", "x"⟩, ⟨none, none⟩]),
           .response 200 (.value [⟨none, none⟩])]
          [.response 200 (.value [tagItem ⟨"t1", "urgent"⟩])]
          (fun _ => .transportError) .transportError (fun _ => .transportError)) 3 () =
      some ⟨.ok [⟨"n1", "a", "x"⟩], (),
        [.get (.notesPage 1) (.response 200 (.value [noteItem ⟨"n1", "a", "x"⟩, ⟨none, none⟩])),
         .get (.notesPage 2) (.response 200 (.value [⟨none, none⟩])),
         .get (.notesPage 3) (.response 200 (.value []))]⟩ ∧
    getAllTags
        (scriptedBackend
          [.response 200 (.value [noteItem ⟨"n1", "a", "x"⟩, ⟨none, none⟩]),
           .response 200 (.value [⟨none, none⟩])]
          [.response 200 (.value [tagItem ⟨"t1", "urgent"⟩])]
          (fun _ => .transportError) .transportError (fun _ => .transportError)) 3 () =
      some ⟨.ok [⟨"t1", "urgent"⟩], (),
        [.get (.tagsPage 1) (.response 200 (.value [tagItem ⟨"t1", "urgent"⟩])),
         .get (.tagsPage 2) (.response 200 (.value []))]⟩ :=
  ⟨(C2_pagination_until_first_empty_page _ () 2
      (fun page => if page = 1 then [noteItem ⟨"n1", "a", "x"⟩, ⟨none, none⟩]
        else [⟨none, none⟩]) 3 (by decide)).1
      (by intro page h1 h2; interval_cases page <;> exact ⟨by decide, by decide⟩)
      (by decide),
   (C2_pagination_until_first_empty_page _ () 1
      (fun _ => [tagItem ⟨"t1", "urgent"⟩]) 3 (by decide)).2
      (by intro page h1 h2; interval_cases page; exact ⟨by decide, by decide⟩)
      (by decide)⟩

/-- The loop of `fetchPages`, started at page `first`: when the next `m`
requests do not fail and bring no empty page, and the request after them
fails, the loop ends with an error after at most `m + 1` requests, and
after exactly `m + 1` when the `m` bodies were readable and well-formed. -/
theorem fetchPages_until_failure {σ α : Type} (B : Backend σ) (endpoint : Nat → Endpoint)
    (unmarshal : RawMessage → Option α) (parseError : Nat → Error) (m : Nat) :
    ∀ (s : σ) (first : Nat) (acc : List α) (fuel : Nat),
      (∀ n, n < m →
        requestFails (B.get (stateAfterPages B endpoint s first n) (endpoint (first + n))).1
            = false ∧
          (B.get (stateAfterPages B endpoint s first n) (endpoint (first + n))).1 ≠
            .response 200 (.value [])) →
      requestFails (B.get (stateAfterPages B endpoint s first m) (endpoint (first + m))).1
        = true →
      m + 1 ≤ fuel →
      ∃ err i, i ≤ m ∧
        fetchPages B endpoint unmarshal parseError fuel s first acc =
          some ⟨.error err, stateAfterPages B endpoint s first (i + 1),
            (List.range (i + 1)).map fun n =>
              Event.get (endpoint (first + n))
                (B.get (stateAfterPages B endpoint s first n) (endpoint (first + n))).1⟩ ∧
        ((∀ n, n < m → ∃ items,
            (B.get (stateAfterPages B endpoint s first n) (endpoint (first + n))).1 =
              .response 200 (.value items)) → i = m) := by
  induction m with
  | zero =>
    intro s first acc fuel _ hfail hfuel
    obtain ⟨fuel, rfl⟩ : ∃ f, fuel = f + 1 := ⟨fuel - 1, by omega⟩
    simp only [stateAfterPages, Nat.add_zero] at hfail
    cases hr : (B.get s (endpoint first)).1 with
    | transportError =>
      exact ⟨.request (endpoint first), 0, le_refl _,
        by simp [fetchPages, hr, fetchData, stateAfterPages, List.range_succ], fun _ => rfl⟩
    | response code body =>
      rw [hr] at hfail
      simp only [requestFails] at hfail
      exact ⟨.apiStatus code (endpoint first), 0, le_refl _,
        by simp [fetchPages, hr, fetchData, stateAfterPages, List.range_succ, hfail],
        fun _ => rfl⟩
  | succ m ih =>
    intro s first acc fuel hok hfail hfuel
    obtain ⟨fuel, rfl⟩ : ∃ f, fuel = f + 1 := ⟨fuel - 1, by omega⟩
    have h0 := hok 0 (by omega)
    simp only [stateAfterPages, Nat.add_zero] at h0
    obtain ⟨h0ok, h0ne⟩ := h0
    cases hr : (B.get s (endpoint first)).1 with
    | transportError => rw [hr] at h0ok; simp [requestFails] at h0ok
    | response code body =>
      rw [hr] at h0ok h0ne
      simp only [requestFails, bne_eq_false_iff_eq] at h0ok
      subst h0ok
      cases body with
      | unreadable =>
        refine ⟨.readBody, 0, Nat.zero_le _, by simp [fetchPages, hr, fetchData, stateAfterPages,
          List.range_succ], fun h => ?_⟩
        obtain ⟨items, hi⟩ := h 0 (by omega)
        simp only [stateAfterPages, Nat.add_zero, hr] at hi
        cases hi
      | malformed =>
        refine ⟨parseError first, 0, Nat.zero_le _,
          by simp [fetchPages, hr, fetchData, stateAfterPages, List.range_succ], fun h => ?_⟩
        obtain ⟨items, hi⟩ := h 0 (by omega)
        simp only [stateAfterPages, Nat.add_zero, hr] at hi
        cases hi
      | value items =>
        have hlen : items.length ≠ 0 := by
          intro h
          exact h0ne (by rw [List.length_eq_zero.1 h])
        obtain ⟨err, i, hi, hrun, hexact⟩ := ih (B.get s (endpoint first)).2 (first + 1)
          (acc ++ items.filterMap unmarshal) fuel
          (by
            intro n hn
            have := hok (n + 1) (by omega)
            rw [stateAfterPages_shift]
            have e : first + 1 + n = first + (n + 1) := by omega
            rw [e]; exact this)
          (by
            rw [stateAfterPages_shift]
            have e : first + 1 + m = first + (m + 1) := by omega
            rw [e]; exact hfail)
          (by omega)
        refine ⟨err, i + 1, by omega, ?_, fun h => ?_⟩
        · simp only [fetchPages, hr, fetchData]
          simp only [hlen, bne_self_eq_false, Bool.false_eq_true, if_false, beq_iff_eq]
          rw [hrun]
          simp only [Option.map_some', Run.after, stateAfterPages_shift]
          congr 2
          rw [List.range_succ_eq_map (i + 1), List.map_cons, List.map_map]
          simp only [stateAfterPages, Nat.add_zero, List.singleton_append, hr]
          congr 1
          apply List.map_congr_left
          intro n _
          simp only [Function.comp, stateAfterPages_shift]
          have e : first + 1 + n = first + (n + 1) := by omega
          rw [e]
          rfl
        · have := hexact (by
            intro n hn
            obtain ⟨its, hits⟩ := h (n + 1) (by omega)
            rw [stateAfterPages_shift]
            have e : first + 1 + n = first + (n + 1) := by omega
            rw [e]; exact ⟨its, hits⟩)
          omega

/-- Failure of `fetchPages` from page 1, with pages counted from 1. -/
theorem fetchPages_failure {σ α : Type} (B : Backend σ) (endpoint : Nat → Endpoint)
    (unmarshal : RawMessage → Option α) (parseError : Nat → Error)
    (s : σ) (j : Nat) (fuel : Nat) (hj : 1 ≤ j) (hfuel : j ≤ fuel)
    (hok : ∀ page, 1 ≤ page → page < j →
      requestFails (pageResponse B endpoint s page) = false ∧
        pageResponse B endpoint s page ≠ .response 200 (.value []))
    (hfail : requestFails (pageResponse B endpoint s j) = true) :
    ∃ err k, 1 ≤ k ∧ k ≤ j ∧
      fetchPages B endpoint unmarshal parseError fuel s 1 [] =
        some ⟨.error err, stateAfterPages B endpoint s 1 k, pageEvents B endpoint s k⟩ ∧
      ((∀ page, 1 ≤ page → page < j → ∃ items,
          pageResponse B endpoint s page = .response 200 (.value items)) → k = j) := by
  obtain ⟨m, rfl⟩ : ∃ m, j = m + 1 := ⟨j - 1, by omega⟩
  obtain ⟨err, i, hi, hrun, hexact⟩ :=
    fetchPages_until_failure B endpoint unmarshal parseError m s 1 [] fuel
      (by
        intro n hn
        rw [← pageResponse_succ]
        exact hok (n + 1) (by omega) (by omega))
      (by rw [← pageResponse_succ]; exact hfail) hfuel
  refine ⟨err, i + 1, by omega, by omega, ?_, fun h => ?_⟩
  · rw [hrun, pageEvents_eq]
  · have := hexact (by
      intro n hn
      rw [← pageResponse_succ]
      exact h (n + 1) (by omega) (by omega))
    omega

/-- Claim C10: when page `j` is the first page whose request fails (transport
error or status other than 200) and no page before `j` is empty,
`getAllNotes` and `getAllTags` (given fuel for `j` iterations) return an error,
hence none of the items of the pages before `j`, and their requests are those
for pages `1..k` with `k ≤ j`: no request follows the one for page `j`.  When
the bodies of the pages before `j` are readable and well-formed, `k = j`. -/
theorem C10_failed_page_aborts_fetch {σ : Type} (B : Backend σ) (s : σ) (j fuel : Nat)
    (hj : 1 ≤ j) (hfuel : j ≤ fuel) :
    ((∀ page, 1 ≤ page → page < j →
        requestFails (pageResponse B Endpoint.notesPage s page) = false ∧
          pageResponse B Endpoint.notesPage s page ≠ .response 200 (.value [])) →
      requestFails (pageResponse B Endpoint.notesPage s j) = true →
      ∃ err k, 1 ≤ k ∧ k ≤ j ∧
        getAllNotes B fuel s =
          some ⟨.error err, stateAfterPages B Endpoint.notesPage s 1 k,
            pageEvents B Endpoint.notesPage s k⟩ ∧
        ((∀ page, 1 ≤ page → page < j → ∃ items,
            pageResponse B Endpoint.notesPage s page = .response 200 (.value items)) →
          k = j)) ∧
    ((∀ page, 1 ≤ page → page < j →
        requestFails (pageResponse B Endpoint.tagsPage s page) = false ∧
          pageResponse B Endpoint.tagsPage s page ≠ .response 200 (.value [])) →
      requestFails (pageResponse B Endpoint.tagsPage s j) = true →
      ∃ err k, 1 ≤ k ∧ k ≤ j ∧
        getAllTags B fuel s =
          some ⟨.error err, stateAfterPages B Endpoint.tagsPage s 1 k,
            pageEvents B Endpoint.tagsPage s k⟩ ∧
        ((∀ page, 1 ≤ page → page < j → ∃ items,
            pageResponse B Endpoint.tagsPage s page = .response 200 (.value items)) →
          k = j)) :=
  ⟨fun hok hfail => fetchPages_failure B _ _ _ s j fuel hj hfuel hok hfail,
   fun hok hfail => fetchPages_failure B _ _ _ s j fuel hj hfuel hok hfail⟩

/-- Witness of C10: the first page of notes and of tags holds an item, the
request for the second page is answered with status 500 (notes) or fails
in the transport (tags). -/
theorem C10_failed_page_witness :
    (∃ err k, 1 ≤ k ∧ k ≤ 2 ∧
      getAllNotes
          (scriptedBackend
            [.response 200 (.value [noteItem ⟨"n1", "a", "x"⟩]), .response 500 .unreadable]
            [.response 200 (.value [tagItem ⟨"t1", "urgent"⟩]), .transportError]
            (fun _ => .transportError) .transportError (fun _ => .transportError)) 2 () =
        some ⟨.error err, (),
          pageEvents
            (scriptedBackend
              [.response 200 (.value [noteItem ⟨"n1", "a", "x"⟩]), .response 500 .unreadable]
              [.response 200 (.value [tagItem ⟨"t1", "urgent"⟩]), .transportError]
              (fun _ => .transportError) .transportError (fun _ => .transportError))
            Endpoint.notesPage () k⟩ ∧
      ((∀ page, 1 ≤ page → page < 2 → ∃ items,
          pageResponse
            (scriptedBackend
              [.response 200 (.value [noteItem ⟨"n1", "a", "x"⟩]), .response 500 .unreadable]
              [.response 200 (.value [tagItem ⟨"t1", "urgent"⟩]), .transportError]
              (fun _ => .transportError) .transportError (fun _ => .transportError))
            Endpoint.notesPage () page = .response 200 (.value items)) →
        k = 2)) ∧
    (∃ err k, 1 ≤ k ∧ k ≤ 2 ∧
      getAllTags
          (scriptedBackend
            [.response 200 (.value [noteItem ⟨"n1", "a", "x"⟩]), .response 500 .unreadable]
            [.response 200 (.value [tagItem ⟨"t1", "urgent"⟩]), .transportError]
            (fun _ => .transportError) .transportError (fun _ => .transportError)) 2 () =
        some ⟨.error err, (),
          pageEvents
            (scriptedBackend
              [.response 200 (.value [noteItem ⟨"n1", "a", "x"⟩]), .response 500 .unreadable]
              [.response 200 (.value [tagItem ⟨"t1", "urgent"⟩]), .transportError]
              (fun _ => .transportError) .transportError (fun _ => .transportError))
            Endpoint.tagsPage () k⟩ ∧
      ((∀ page, 1 ≤ page → page < 2 → ∃ items,
          pageResponse
            (scriptedBackend
              [.response 200 (.value [noteItem ⟨"n1", "a", "x"⟩]), .response 500 .unreadable]
              [.response 200 (.value [tagItem ⟨"t1", "urgent"⟩]), .transportError]
              (fun _ => .transportError) .transportError (fun _ => .transportError))
            Endpoint.tagsPage () page = .response 200 (.value items)) →
        k = 2)) :=
  ⟨(C10_failed_page_aborts_fetch _ () 2 2 (by decide) (by decide)).1
      (by intro page h1 h2; interval_cases page; exact ⟨by decide, by decide⟩)
      (by decide),
   (C10_failed_page_aborts_fetch _ () 2 2 (by decide) (by decide)).2
      (by intro page h1 h2; interval_cases page; exact ⟨by decide, by decide⟩)
      (by decide)⟩

/-! ## The tag associator and the tag resolver -/

/-- Claim C5: for every note id, tag id and backend: when the request can be
built, `associateTag` makes one association request and returns no error
exactly when the answer carries status 200 or status 409, so that 409 is
handled as 200 is, while a transport failure and every other status give an
error; when `http.NewRequest` fails nothing is sent and an error is
returned. -/
theorem C5_associateTag_conflict_is_success {σ : Type} (urlParses : String → Bool)
    (JOPLIN_TOKEN : String) (B : Backend σ) (s : σ) (noteID tagID : String) :
    ((urlParses (associateTagURL JOPLIN_TOKEN tagID) = true ∧
        (associateTag urlParses JOPLIN_TOKEN B s noteID tagID).trace =
          [Event.associate tagID noteID (B.postTagNote s tagID noteID).1] ∧
        ((associateTag urlParses JOPLIN_TOKEN B s noteID tagID).result = none ↔
          ∃ StatusCode body,
            (B.postTagNote s tagID noteID).1 = .response StatusCode body ∧
              (StatusCode = 200 ∨ StatusCode = 409))) ∨
      (urlParses (associateTagURL JOPLIN_TOKEN tagID) = false ∧
        associateTag urlParses JOPLIN_TOKEN B s noteID tagID =
          ⟨some .newRequest, s, []⟩)) ∧
    (∀ body, associateTagResult (.response 409 body) = none) ∧
    (∀ body, associateTagResult (.response 200 body) = none) ∧
    associateTagResult .transportError = some .postExec ∧
    (∀ StatusCode body, associateTagResult (.response StatusCode body) =
      if StatusCode = 200 ∨ StatusCode = 409 then none
      else some (.attachStatus StatusCode)) := by
  refine ⟨?_, fun _ => rfl, fun _ => rfl, rfl, ?_⟩
  · cases hu : urlParses (associateTagURL JOPLIN_TOKEN tagID) with
    | false =>
      right
      exact ⟨rfl, by simp [associateTag, hu]⟩
    | true =>
      left
      refine ⟨rfl, by simp [associateTag, hu], ?_⟩
      simp only [associateTag, hu]
      cases h : (B.postTagNote s tagID noteID).1 with
      | transportError => simp [associateTagResult]
      | response code body =>
        simp only [associateTagResult]
        by_cases h2 : code = 200
        · subst h2; simp
        · by_cases h4 : code = 409
          · subst h4; simp
          · simp [h2, h4]
  · intro code body
    simp only [associateTagResult]
    by_cases h2 : code = 200
    · subst h2; simp
    · by_cases h4 : code = 409
      · subst h4; simp
      · simp [h2, h4]

/-- Claim C4 fails on the code: the tag list holds two tags with the requested
title, the first with the empty string as id; the search loop stops at it
with `targetTagID` still `""`, so the test of line 293 sends a create-tag
request, and the target is the id of the new tag, not the id of a tag of the
list.  On the paginating backend the run leaves a third tag with the same
title. -/
theorem C4_found_tag_with_empty_id_is_created_again :
    findTargetTagID "urgent" [⟨"", "urgent"⟩, ⟨"t2", "urgent"⟩] = "" ∧
    (resolveTargetTag plainURL "token"
        (scriptedBackend [] [] (fun _ => .transportError)
          (.response 200 (.value ⟨"t9", "urgent"⟩)) (fun _ => .transportError))
        () "urgent" [⟨"", "urgent"⟩, ⟨"t2", "urgent"⟩]) =
      ⟨.ok "t9", (), [.createTag "urgent" (.response 200 (.value ⟨"t9", "urgent"⟩))]⟩ ∧
    (main Char.toLower plainURL (restBackend 409) "token" "urgent" ["deadline"] 5
        emptyIdStore).map (fun run => (run.result, run.state.tags)) =
      some (.done 0, [⟨"", "urgent"⟩, ⟨"t2", "urgent"⟩, ⟨"new0", "urgent"⟩]) := by
  refine ⟨by decide, by set_option maxRecDepth 8000 in decide,
    by set_option maxRecDepth 8000 in decide⟩

/-! ## The scan loop -/

theorem getNoteTagsResult_ok_iff (noteID : String) (r : HttpResult (List RawMessage))
    (ids : List String) :
    getNoteTagsResult noteID r = .ok ids ↔
      ∃ items, r = .response 200 (.value items) ∧ ids = tagIDs items := by
  cases r with
  | transportError => simp [getNoteTagsResult, fetchData]
  | response code body =>
    by_cases h : code = 200
    · subst h
      cases body <;> simp [getNoteTagsResult, fetchData, tagIDs, eq_comm]
    · simp [getNoteTagsResult, fetchData, h]

/-- One iteration of the scan loop: the exchanges made for the first note have
one of the shapes of `NoteSegment`, the loop goes on with the rest of the
list, and the counter grows by the number of association requests that
returned no error. -/
theorem scanNotes_cons {σ : Type} (unicodeToLower : Char → Char)
    (urlParses : String → Bool) (JOPLIN_TOKEN : String) (B : Backend σ)
    (targetTagID : String) (containsSubstrings : List String) (note : Note)
    (rest : List Note) (s : σ) (totalTagsAdded : Nat) :
    ∃ segment s1,
      NoteSegment unicodeToLower urlParses JOPLIN_TOKEN targetTagID containsSubstrings note
        segment ∧
      scanNotes unicodeToLower urlParses JOPLIN_TOKEN B targetTagID containsSubstrings
          (note :: rest) s totalTagsAdded =
        (scanNotes unicodeToLower urlParses JOPLIN_TOKEN B targetTagID containsSubstrings
          rest s1 (totalTagsAdded + segment.countP associatedWithoutError)).after
          segment := by
  by_cases hm : matchesAllSubstrings unicodeToLower (ToLower unicodeToLower note.Body)
      containsSubstrings = true
  · cases hc : getNoteTagsResult note.ID (B.get s (.noteTags note.ID)).1 with
    | error err =>
      refine ⟨[Event.get (.noteTags note.ID) (B.get s (.noteTags note.ID)).1],
        (B.get s (.noteTags note.ID)).2, ?_, ?_⟩
      · simp only [NoteSegment, hm, if_true]
        left
        refine ⟨_, rfl, fun items hi => ?_⟩
        have := (getNoteTagsResult_ok_iff note.ID _ (tagIDs items)).2 ⟨items, hi, rfl⟩
        rw [hc] at this
        cases this
      · simp [scanNotes, hm, getNoteTags, hc, associatedWithoutError]
    | ok ids =>
      obtain ⟨items, hitems, hids⟩ := (getNoteTagsResult_ok_iff _ _ _).1 hc
      by_cases hin : targetTagID ∈ ids
      · refine ⟨[Event.get (.noteTags note.ID) (B.get s (.noteTags note.ID)).1],
          (B.get s (.noteTags note.ID)).2, ?_, ?_⟩
        · simp only [NoteSegment, hm, if_true]
          left
          refine ⟨_, rfl, fun items2 hi => ?_⟩
          rw [hitems] at hi
          cases hi
          rw [← hids]
          exact Or.inl hin
        · simp [scanNotes, hm, getNoteTags, hc, hin, associatedWithoutError]
      · cases hu : urlParses (associateTagURL JOPLIN_TOKEN targetTagID) with
        | false =>
          refine ⟨[Event.get (.noteTags note.ID) (B.get s (.noteTags note.ID)).1],
            (B.get s (.noteTags note.ID)).2, ?_, ?_⟩
          · simp only [NoteSegment, hm, if_true]
            left
            exact ⟨_, rfl, fun _ _ => Or.inr hu⟩
          · simp [scanNotes, hm, getNoteTags, hc, hin, associateTag, hu,
              associatedWithoutError]
        | true =>
          refine ⟨[Event.get (.noteTags note.ID) (B.get s (.noteTags note.ID)).1,
              Event.associate targetTagID note.ID
                (B.postTagNote (B.get s (.noteTags note.ID)).2 targetTagID note.ID).1],
            (B.postTagNote (B.get s (.noteTags note.ID)).2 targetTagID note.ID).2, ?_, ?_⟩
          · simp only [NoteSegment, hm, if_true]
            right
            refine ⟨items,
              (B.postTagNote (B.get s (.noteTags note.ID)).2 targetTagID note.ID).1,
              ?_, ?_, hu⟩
            · rw [hitems]
            · rw [← hids]
              exact hin
          · cases ha : associateTagResult
                (B.postTagNote (B.get s (.noteTags note.ID)).2 targetTagID note.ID).1 with
            | none =>
              simp [scanNotes, hm, getNoteTags, hc, hin, associateTag, hu, ha,
                associatedWithoutError, List.countP_cons]
            | some err =>
              simp [scanNotes, hm, getNoteTags, hc, hin, associateTag, hu, ha,
                associatedWithoutError, List.countP_cons]
  · refine ⟨[], s, ?_, ?_⟩
    · simp [NoteSegment, hm]
    · simp [scanNotes, hm, Run.after]

/-- The whole scan: its trace is the concatenation of one segment per entry of
the note list, in list order, and its result is the starting count plus the
number of association requests that returned no error. -/
theorem scanNotes_segments {σ : Type} (unicodeToLower : Char → Char)
    (urlParses : String → Bool) (JOPLIN_TOKEN : String) (B : Backend σ)
    (targetTagID : String) (containsSubstrings : List String) (allNotes : List Note) :
    ∀ (s : σ) (totalTagsAdded : Nat),
      ∃ segments,
        List.Forall₂
          (NoteSegment unicodeToLower urlParses JOPLIN_TOKEN targetTagID containsSubstrings)
          allNotes segments ∧
        (scanNotes unicodeToLower urlParses JOPLIN_TOKEN B targetTagID containsSubstrings
            allNotes s totalTagsAdded).trace =
          segments.flatten ∧
        (scanNotes unicodeToLower urlParses JOPLIN_TOKEN B targetTagID containsSubstrings
            allNotes s totalTagsAdded).result =
          totalTagsAdded + segments.flatten.countP associatedWithoutError := by
  induction allNotes with
  | nil =>
    intro s total
    exact ⟨[], List.Forall₂.nil, rfl, rfl⟩
  | cons note rest ih =>
    intro s total
    obtain ⟨segment, s1, hseg, hrun⟩ :=
      scanNotes_cons unicodeToLower urlParses JOPLIN_TOKEN B targetTagID containsSubstrings
        note rest s total
    obtain ⟨segments, hall, htrace, hres⟩ := ih s1
      (total + segment.countP associatedWithoutError)
    refine ⟨segment :: segments, List.Forall₂.cons hseg hall, ?_, ?_⟩
    · rw [hrun]
      simp only [Run.after, List.flatten_cons, htrace]
    · rw [hrun]
      simp only [Run.after, List.flatten_cons, hres, List.countP_append]
      omega

theorem checkedBeforeAttach_nil : CheckedBeforeAttach [] := by
  intro before tagID noteID r after h
  cases before <;> simp at h

theorem checkedBeforeAttach_cons (e : Event) (trace : List Event)
    (he : isAssociate e = false) (h : CheckedBeforeAttach trace) :
    CheckedBeforeAttach (e :: trace) := by
  intro before tagID noteID r after heq
  cases before with
  | nil =>
    simp only [List.nil_append, List.cons.injEq] at heq
    rw [heq.1] at he
    simp [isAssociate] at he
  | cons x before1 =>
    simp only [List.cons_append, List.cons.injEq] at heq
    obtain ⟨earlier, items, hb, hnot⟩ := h before1 tagID noteID r after heq.2
    exact ⟨x :: earlier, items, by rw [hb]; rfl, hnot⟩

theorem checkedBeforeAttach_append (earlier trace : List Event)
    (he : ∀ e ∈ earlier, isAssociate e = false) (h : CheckedBeforeAttach trace) :
    CheckedBeforeAttach (earlier ++ trace) := by
  induction earlier with
  | nil => exact h
  | cons e rest ih =>
    exact checkedBeforeAttach_cons e _ (he e (List.mem_cons_self _ _))
      (ih fun x hx => he x (List.mem_cons_of_mem _ hx))

theorem checkedBeforeAttach_segment {unicodeToLower : Char → Char}
    {urlParses : String → Bool} {JOPLIN_TOKEN : String} (targetTagID : String)
    (containsSubstrings : List String) (note : Note) (segment trace : List Event)
    (hseg : NoteSegment unicodeToLower urlParses JOPLIN_TOKEN targetTagID containsSubstrings
      note segment)
    (h : CheckedBeforeAttach trace) : CheckedBeforeAttach (segment ++ trace) := by
  unfold NoteSegment at hseg
  split at hseg
  · rcases hseg with ⟨r, rfl, _⟩ | ⟨items, a, rfl, hnot, _⟩
    · exact checkedBeforeAttach_cons _ _ rfl h
    · intro before tagID noteID r after heq
      cases before with
      | nil => simp at heq
      | cons x before1 =>
        simp only [List.cons_append, List.cons.injEq, List.nil_append] at heq
        obtain ⟨hx, heq⟩ := heq
        cases before1 with
        | nil =>
          simp only [List.nil_append, List.cons.injEq, Event.associate.injEq] at heq
          obtain ⟨⟨h1, h2, _⟩, _⟩ := heq
          subst h1 h2 hx
          exact ⟨[], items, rfl, hnot⟩
        | cons y before2 =>
          simp only [List.cons_append, List.cons.injEq] at heq
          obtain ⟨earlier, items2, hb, hnot2⟩ := h before2 tagID noteID r after heq.2
          exact ⟨x :: y :: earlier, items2, by rw [hb]; rfl, hnot2⟩
  · subst hseg
    exact h

theorem checkedBeforeAttach_segments {unicodeToLower : Char → Char}
    {urlParses : String → Bool} {JOPLIN_TOKEN : String} (targetTagID : String)
    (containsSubstrings : List String) (allNotes : List Note) (segments : List (List Event))
    (h : List.Forall₂
      (NoteSegment unicodeToLower urlParses JOPLIN_TOKEN targetTagID containsSubstrings)
      allNotes segments) :
    CheckedBeforeAttach segments.flatten := by
  induction h with
  | nil => exact checkedBeforeAttach_nil
  | cons hseg _ ih =>
    rw [List.flatten_cons]
    exact checkedBeforeAttach_segment _ _ _ _ _ hseg ih

theorem noteSegment_countP_isAssociate {unicodeToLower : Char → Char}
    {urlParses : String → Bool} {JOPLIN_TOKEN : String} (targetTagID : String)
    (containsSubstrings : List String) (note : Note) (segment : List Event)
    (hseg : NoteSegment unicodeToLower urlParses JOPLIN_TOKEN targetTagID containsSubstrings
      note segment) :
    segment.countP isAssociate ≤ 1 := by
  unfold NoteSegment at hseg
  split at hseg
  · rcases hseg with ⟨r, rfl, _⟩ | ⟨items, a, rfl, _⟩ <;>
      simp [isAssociate, List.countP_cons]
  · subst hseg
    simp

theorem noteSegment_associate_target {unicodeToLower : Char → Char}
    {urlParses : String → Bool} {JOPLIN_TOKEN : String} (targetTagID : String)
    (containsSubstrings : List String) (note : Note) (segment : List Event)
    (hseg : NoteSegment unicodeToLower urlParses JOPLIN_TOKEN targetTagID containsSubstrings
      note segment) :
    ∀ tagID noteID a, Event.associate tagID noteID a ∈ segment →
      tagID = targetTagID ∧ noteID = note.ID := by
  intro tagID noteID a hmem
  unfold NoteSegment at hseg
  split at hseg
  · rcases hseg with ⟨r, rfl, _⟩ | ⟨items, a2, rfl, _⟩
    · simp at hmem
    · simp at hmem
      exact ⟨hmem.1, hmem.2.1⟩
  · subst hseg
    simp at hmem

theorem fetchPages_trace_no_associate {σ α : Type} (B : Backend σ) (endpoint : Nat → Endpoint)
    (unmarshal : RawMessage → Option α) (parseError : Nat → Error) (fuel : Nat) :
    ∀ (s : σ) (page : Nat) (acc : List α) (run : Run σ (Except Error (List α))),
      fetchPages B endpoint unmarshal parseError fuel s page acc = some run →
      ∀ e ∈ run.trace, isAssociate e = false := by
  induction fuel with
  | zero =>
    intro s page acc run h
    simp [fetchPages] at h
  | succ fuel ih =>
    intro s page acc run h
    simp only [fetchPages] at h
    split at h
    · cases h
      intro e he
      simp at he
      subst he
      rfl
    · cases h
      intro e he
      simp at he
      subst he
      rfl
    · split at h
      · cases h
        intro e he
        simp at he
        subst he
        rfl
      · cases hrec : fetchPages B endpoint unmarshal parseError fuel
            (B.get s (endpoint page)).2 (page + 1) (acc ++ List.filterMap unmarshal ‹_›) with
        | none => rw [hrec] at h; simp at h
        | some run1 =>
          rw [hrec] at h
          simp only [Option.map_some', Option.some.injEq] at h
          subst h
          intro e he
          simp only [Run.after, List.singleton_append, List.mem_cons] at he
          rcases he with rfl | he
          · rfl
          · exact ih _ _ _ _ hrec e he

theorem resolveTargetTag_trace_no_associate {σ : Type} (urlParses : String → Bool)
    (JOPLIN_TOKEN : String) (B : Backend σ) (s : σ) (tagName : String)
    (allTags : List Tag) :
    ∀ e ∈ (resolveTargetTag urlParses JOPLIN_TOKEN B s tagName allTags).trace,
      isAssociate e = false := by
  intro e he
  simp only [resolveTargetTag] at he
  split at he
  · simp only [createTag] at he
    split at he
    · simp at he
    · simp only [List.mem_singleton] at he
      subst he
      rfl
  · simp at he

/-- A run of `main`: either it stops before the scan, having made no
association request, or the phases before the scan resolve a target tag
and fetch a note list, and the trace of the run is the exchanges of these
phases, which hold no association request, followed by the trace of the scan
of that note list; the run ends with the count of that scan. -/
theorem main_trace {σ : Type} (unicodeToLower : Char → Char) (urlParses : String → Bool)
    (B : Backend σ) (JOPLIN_TOKEN tagName : String) (containsSubstrings : List String)
    (fuel : Nat) (s : σ) (run : Run σ Exit)
    (h : main unicodeToLower urlParses B JOPLIN_TOKEN tagName containsSubstrings fuel s =
      some run) :
    ((∀ n, run.result ≠ .done n) ∧ ∀ e ∈ run.trace, isAssociate e = false) ∨
      ∃ targetTagID allNotes earlier s0,
        ReachesScan urlParses B JOPLIN_TOKEN tagName fuel s targetTagID allNotes earlier s0 ∧
        (∀ e ∈ earlier, isAssociate e = false) ∧
        run.trace =
          earlier ++
            (scanNotes unicodeToLower urlParses JOPLIN_TOKEN B targetTagID
              containsSubstrings allNotes s0 0).trace ∧
        run.result =
          .done
            (scanNotes unicodeToLower urlParses JOPLIN_TOKEN B targetTagID
              containsSubstrings allNotes s0 0).result := by
  simp only [main] at h
  split at h
  · cases h
    exact Or.inl ⟨by simp, by simp⟩
  · split at h
    · cases h
      exact Or.inl ⟨by simp, by simp⟩
    · cases ht : getAllTags B fuel s with
      | none => rw [ht] at h; simp at h
      | some tagsRun =>
        have htags := fetchPages_trace_no_associate B _ _ _ fuel s 1 [] tagsRun ht
        rw [ht] at h
        simp only at h
        cases hres : tagsRun.result with
        | error err =>
          rw [hres] at h
          simp only [Option.some.injEq] at h
          subst h
          exact Or.inl ⟨by simp, htags⟩
        | ok allTags =>
          rw [hres] at h
          simp only at h
          have hresolve := resolveTargetTag_trace_no_associate urlParses JOPLIN_TOKEN B
            tagsRun.state tagName allTags
          cases hr : (resolveTargetTag urlParses JOPLIN_TOKEN B tagsRun.state tagName
              allTags).result with
          | error err =>
            rw [hr] at h
            simp only [Option.some.injEq] at h
            subst h
            refine Or.inl ⟨by simp, ?_⟩
            intro e he
            rcases List.mem_append.1 he with he | he
            · exact htags e he
            · exact hresolve e he
          | ok targetTagID =>
            rw [hr] at h
            simp only at h
            cases hn : getAllNotes B fuel
                (resolveTargetTag urlParses JOPLIN_TOKEN B tagsRun.state tagName
                  allTags).state with
            | none => rw [hn] at h; simp at h
            | some notesRun =>
              have hnotes := fetchPages_trace_no_associate B _ _ _ fuel _ 1 [] notesRun hn
              rw [hn] at h
              simp only at h
              have hearlier : ∀ e ∈ tagsRun.trace ++
                  (resolveTargetTag urlParses JOPLIN_TOKEN B tagsRun.state tagName
                    allTags).trace ++ notesRun.trace,
                  isAssociate e = false := by
                intro e he
                rcases List.mem_append.1 he with he | he
                · rcases List.mem_append.1 he with he | he
                  · exact htags e he
                  · exact hresolve e he
                · exact hnotes e he
              cases hnr : notesRun.result with
              | error err =>
                rw [hnr] at h
                simp only [Option.some.injEq] at h
                subst h
                exact Or.inl ⟨by simp, hearlier⟩
              | ok allNotes =>
                rw [hnr] at h
                simp only [Option.some.injEq] at h
                subst h
                exact Or.inr ⟨targetTagID, allNotes, _, notesRun.state,
                  ⟨tagsRun, allTags, notesRun, ht, hres, hr, hn, hnr, rfl, rfl⟩,
                  hearlier, rfl, rfl⟩

theorem countP_isAssociate_of_no_associate (earlier : List Event)
    (h : ∀ e ∈ earlier, isAssociate e = false) : earlier.countP isAssociate = 0 := by
  rw [List.countP_eq_zero]
  intro e he hc
  rw [h e he] at hc
  cases hc

theorem segments_checkedNotes {unicodeToLower : Char → Char} {urlParses : String → Bool}
    {JOPLIN_TOKEN : String} (targetTagID : String) (containsSubstrings : List String)
    (allNotes : List Note) (segments : List (List Event))
    (h : List.Forall₂
      (NoteSegment unicodeToLower urlParses JOPLIN_TOKEN targetTagID containsSubstrings)
      allNotes segments) :
    segments.flatten.filterMap checkedNote =
      (allNotes.filter fun note =>
        matchesAllSubstrings unicodeToLower (ToLower unicodeToLower note.Body)
          containsSubstrings).map Note.ID := by
  induction h with
  | nil => rfl
  | @cons note segment rest segments1 hseg _ ih =>
    rw [List.flatten_cons, List.filterMap_append, ih]
    unfold NoteSegment at hseg
    split at hseg
    · rename_i hm
      rcases hseg with ⟨r, rfl, _⟩ | ⟨items, a, rfl, _⟩ <;>
        simp [List.filter_cons, hm, checkedNote, List.filterMap_cons]
    · rename_i hm
      subst hseg
      simp [List.filter_cons, hm]

/-- Claim C6: whatever the backend answers to the membership checks and to
the association requests, the scan loop checks the membership of exactly the
notes whose body matches, once each and in list order; its trace is cut in
one segment per entry of the note list, a matching entry giving a membership
check alone or followed by one association request for that note, a
non-matching entry giving no exchange at all. -/
theorem C6_scan_checks_exactly_matching_notes {σ : Type}
    (unicodeToLower : Char → Char) (urlParses : String → Bool) (JOPLIN_TOKEN : String)
    (B : Backend σ) (targetTagID : String) (containsSubstrings : List String)
    (allNotes : List Note) (s : σ) (totalTagsAdded : Nat) :
    (scanNotes unicodeToLower urlParses JOPLIN_TOKEN B targetTagID containsSubstrings
        allNotes s totalTagsAdded).trace.filterMap checkedNote =
      (allNotes.filter fun note =>
        matchesAllSubstrings unicodeToLower (ToLower unicodeToLower note.Body)
          containsSubstrings).map Note.ID ∧
    ∃ segments,
      (scanNotes unicodeToLower urlParses JOPLIN_TOKEN B targetTagID containsSubstrings
          allNotes s totalTagsAdded).trace =
        segments.flatten ∧
      List.Forall₂
        (fun note segment =>
          if matchesAllSubstrings unicodeToLower (ToLower unicodeToLower note.Body)
              containsSubstrings then
            (∃ r, segment = [Event.get (.noteTags note.ID) r]) ∨
            (∃ r a, segment =
              [Event.get (.noteTags note.ID) r, Event.associate targetTagID note.ID a])
          else segment = [])
        allNotes segments := by
  obtain ⟨segments, hall, htrace, _⟩ :=
    scanNotes_segments unicodeToLower urlParses JOPLIN_TOKEN B targetTagID
      containsSubstrings allNotes s totalTagsAdded
  refine ⟨?_, segments, htrace, ?_⟩
  · rw [htrace]
    exact segments_checkedNotes _ _ _ _ hall
  · refine hall.imp ?_
    intro note segment hseg
    unfold NoteSegment at hseg
    split at hseg
    · rename_i hm
      rw [if_pos hm]
      rcases hseg with ⟨r, h1, _⟩ | ⟨items, a, h1, _⟩
      · exact Or.inl ⟨r, h1⟩
      · exact Or.inr ⟨_, a, h1⟩
    · rename_i hm
      rw [if_neg hm]
      exact hseg

/-- Claim C9: in the scan loop and in every run of `main`, every association
request comes right after a membership check of the same note answered with
a well-formed page whose tag ids do not include the tag being attached.  A
run of `main` that stops before the scan makes no association request; in a
run that reaches the scan the trace after the phases that resolve the target
tag and fetch the note list is cut in one segment per entry of that note
list, of the shapes of `NoteSegment`: each entry gives at most one
association request, for that note and the target tag, and none when the
answer to its membership check holds the target tag. -/
theorem C9_association_follows_membership_check {σ : Type}
    (unicodeToLower : Char → Char) (urlParses : String → Bool) (B : Backend σ)
    (containsSubstrings : List String) :
    (∀ (JOPLIN_TOKEN targetTagID : String) (allNotes : List Note) (s : σ)
        (totalTagsAdded : Nat),
      CheckedBeforeAttach
        (scanNotes unicodeToLower urlParses JOPLIN_TOKEN B targetTagID containsSubstrings
          allNotes s totalTagsAdded).trace ∧
      ∃ segments,
        (scanNotes unicodeToLower urlParses JOPLIN_TOKEN B targetTagID containsSubstrings
            allNotes s totalTagsAdded).trace =
          segments.flatten ∧
        List.Forall₂
          (fun note segment =>
            NoteSegment unicodeToLower urlParses JOPLIN_TOKEN targetTagID containsSubstrings
              note segment ∧
            segment.countP isAssociate ≤ 1 ∧
            ∀ tagID noteID a, Event.associate tagID noteID a ∈ segment →
              tagID = targetTagID ∧ noteID = note.ID)
          allNotes segments) ∧
    (∀ (JOPLIN_TOKEN tagName : String) (fuel : Nat) (s : σ) (run : Run σ Exit),
      main unicodeToLower urlParses B JOPLIN_TOKEN tagName containsSubstrings fuel s =
        some run →
      CheckedBeforeAttach run.trace ∧
      (((∀ n, run.result ≠ .done n) ∧ run.trace.countP isAssociate = 0) ∨
        ∃ targetTagID allNotes earlier s0 segments,
          ReachesScan urlParses B JOPLIN_TOKEN tagName fuel s targetTagID allNotes earlier
            s0 ∧
          earlier.countP isAssociate = 0 ∧
          run.trace = earlier ++ segments.flatten ∧
          List.Forall₂
            (fun note segment =>
              NoteSegment unicodeToLower urlParses JOPLIN_TOKEN targetTagID
                containsSubstrings note segment ∧
              segment.countP isAssociate ≤ 1 ∧
              ∀ tagID noteID a, Event.associate tagID noteID a ∈ segment →
                tagID = targetTagID ∧ noteID = note.ID)
            allNotes segments)) := by
  have hscan : ∀ (JOPLIN_TOKEN targetTagID : String) (allNotes : List Note) (s : σ)
      (total : Nat),
      CheckedBeforeAttach
        (scanNotes unicodeToLower urlParses JOPLIN_TOKEN B targetTagID containsSubstrings
          allNotes s total).trace := by
    intro tok targetTagID allNotes s total
    obtain ⟨segments, hall, htrace, _⟩ :=
      scanNotes_segments unicodeToLower urlParses tok B targetTagID containsSubstrings
        allNotes s total
    rw [htrace]
    exact checkedBeforeAttach_segments _ _ _ _ hall
  have hsegs : ∀ (JOPLIN_TOKEN targetTagID : String) (allNotes : List Note) (s : σ)
      (total : Nat),
      ∃ segments,
        (scanNotes unicodeToLower urlParses JOPLIN_TOKEN B targetTagID containsSubstrings
            allNotes s total).trace =
          segments.flatten ∧
        List.Forall₂
          (fun note segment =>
            NoteSegment unicodeToLower urlParses JOPLIN_TOKEN targetTagID containsSubstrings
              note segment ∧
            segment.countP isAssociate ≤ 1 ∧
            ∀ tagID noteID a, Event.associate tagID noteID a ∈ segment →
              tagID = targetTagID ∧ noteID = note.ID)
          allNotes segments := by
    intro tok targetTagID allNotes s total
    obtain ⟨segments, hall, htrace, _⟩ :=
      scanNotes_segments unicodeToLower urlParses tok B targetTagID containsSubstrings
        allNotes s total
    refine ⟨segments, htrace, hall.imp ?_⟩
    intro note segment hseg
    exact ⟨hseg, noteSegment_countP_isAssociate _ _ _ _ hseg,
      noteSegment_associate_target _ _ _ _ hseg⟩
  refine ⟨fun tok targetTagID allNotes s total =>
    ⟨hscan _ _ _ _ _, hsegs _ _ _ _ _⟩, ?_⟩
  intro tok tagName fuel s run hrun
  rcases main_trace unicodeToLower urlParses B tok tagName containsSubstrings fuel s run
    hrun with ⟨hnot, hno⟩ | ⟨targetTagID, allNotes, earlier, s0, hreach, hearlier, htrace, _⟩
  · refine ⟨?_, Or.inl ⟨hnot, countP_isAssociate_of_no_associate _ hno⟩⟩
    rw [← List.append_nil run.trace]
    exact checkedBeforeAttach_append _ _ hno checkedBeforeAttach_nil
  · refine ⟨?_, Or.inr ?_⟩
    · rw [htrace]
      exact checkedBeforeAttach_append _ _ hearlier (hscan _ _ _ _ _)
    · obtain ⟨segments, hflat, hall⟩ := hsegs tok targetTagID allNotes s0 0
      exact ⟨targetTagID, allNotes, earlier, s0, segments, hreach,
        countP_isAssociate_of_no_associate _ hearlier, by rw [htrace, hflat], hall⟩

/-- Witness of C9: the end-to-end scenario, run to its end (count 2, two
association requests). -/
theorem C9_association_witness :
    (main Char.toLower plainURL (restBackend 409) "token" "Important Project"
        ["deadline", "project x"] 5 scenarioStore).map
        (fun run => (run.result, run.trace.countP isAssociate)) =
      some (.done 2, 2) ∧
    ∃ run,
      main Char.toLower plainURL (restBackend 409) "token" "Important Project"
          ["deadline", "project x"] 5 scenarioStore = some run ∧
      CheckedBeforeAttach run.trace ∧
      (((∀ n, run.result ≠ .done n) ∧ run.trace.countP isAssociate = 0) ∨
        ∃ targetTagID allNotes earlier s0 segments,
          ReachesScan plainURL (restBackend 409) "token" "Important Project" 5 scenarioStore
            targetTagID allNotes earlier s0 ∧
          earlier.countP isAssociate = 0 ∧
          run.trace = earlier ++ segments.flatten ∧
          List.Forall₂
            (fun note segment =>
              NoteSegment Char.toLower plainURL "token" targetTagID
                ["deadline", "project x"] note segment ∧
              segment.countP isAssociate ≤ 1 ∧
              ∀ tagID noteID a, Event.associate tagID noteID a ∈ segment →
                tagID = targetTagID ∧ noteID = note.ID)
            allNotes segments) := by
  refine ⟨by set_option maxRecDepth 8000 in decide, ?_⟩
  cases h : main Char.toLower plainURL (restBackend 409) "token" "Important Project"
      ["deadline", "project x"] 5 scenarioStore with
  | none => exact absurd h (by set_option maxRecDepth 8000 in decide)
  | some run =>
    exact ⟨run, rfl,
      (C9_association_follows_membership_check Char.toLower plainURL (restBackend 409)
        ["deadline", "project x"]).2 "token" "Important Project" 5 scenarioStore run h⟩

/-! ## The count, the membership checker and the second run -/

theorem associatedWithoutError_iff (e : Event) :
    associatedWithoutError e = true ↔
      ∃ tagID noteID StatusCode body,
        e = Event.associate tagID noteID (.response StatusCode body) ∧
          (StatusCode = 200 ∨ StatusCode = 409) := by
  cases e with
  | get endpoint r => simp [associatedWithoutError]
  | createTag title r => simp [associatedWithoutError]
  | associate tagID noteID r =>
    cases r with
    | transportError => simp [associatedWithoutError, associateTagResult]
    | response code body =>
      simp only [associatedWithoutError, associateTagResult]
      by_cases h2 : code = 200
      · subst h2
        simp only [bne_self_eq_false, Bool.false_eq_true, if_false, Option.isNone_none,
          true_iff]
        exact ⟨tagID, noteID, 200, body, rfl, Or.inl rfl⟩
      · by_cases h4 : code = 409
        · subst h4
          refine ⟨fun _ => ⟨tagID, noteID, 409, body, rfl, Or.inr rfl⟩, fun _ => ?_⟩
          decide
        · simp [h2, h4]

theorem countP_associatedWithoutError_of_no_associate (earlier : List Event)
    (h : ∀ e ∈ earlier, isAssociate e = false) :
    earlier.countP associatedWithoutError = 0 := by
  rw [List.countP_eq_zero]
  intro e he hc
  have := h e he
  cases e <;> simp [isAssociate, associatedWithoutError] at this hc

/-- What `main` counts: in a run that reaches the end of the scan, the final
count is the number of association requests to which `associateTag` returned
no error, those answered with status 200 and those answered with 409. -/
theorem main_count_associations_without_error {σ : Type} (unicodeToLower : Char → Char)
    (urlParses : String → Bool) (B : Backend σ) (JOPLIN_TOKEN tagName : String)
    (containsSubstrings : List String) (fuel : Nat) (s : σ) (run : Run σ Exit)
    (totalTagsAdded : Nat)
    (hrun : main unicodeToLower urlParses B JOPLIN_TOKEN tagName containsSubstrings fuel s =
      some run)
    (hres : run.result = .done totalTagsAdded) :
    totalTagsAdded = run.trace.countP associatedWithoutError := by
  rcases main_trace unicodeToLower urlParses B JOPLIN_TOKEN tagName containsSubstrings fuel
    s run hrun with ⟨hnot, _⟩ | ⟨targetTagID, allNotes, earlier, s0, _, hearlier, htrace, hdone⟩
  · exact absurd hres (hnot totalTagsAdded)
  · obtain ⟨segments, _, hseg, hcount⟩ :=
      scanNotes_segments unicodeToLower urlParses JOPLIN_TOKEN B targetTagID
        containsSubstrings allNotes s0 0
    rw [hdone, Exit.done.injEq] at hres
    rw [htrace, List.countP_append, countP_associatedWithoutError_of_no_associate _ hearlier,
      ← hres, hcount, hseg]

/-- Claim C7 fails on the code: with one matching note whose membership check
shows no tag and whose association request is answered with 409 (the tag is
already attached, nothing new is added), `main` ends with count 1 although
no association request of the run was answered with status 200; the same
count 1 comes out of the second run on the paginating backend, where the 409
is reached because the membership check reads one page only.  The end-to-end
scenario gives the count 2 the claim states. -/
theorem C7_conflict_answer_is_counted :
    main Char.toLower plainURL conflictBackend "token" "urgent" ["deadline"] 3 () =
      some ⟨.done 1, (),
        [.get (.tagsPage 1) (.response 200 (.value [tagItem ⟨"t", "urgent"⟩])),
         .get (.tagsPage 2) (.response 200 (.value [])),
         .get (.notesPage 1) (.response 200 (.value [noteItem ⟨"n1", "note", "the deadline"⟩])),
         .get (.notesPage 2) (.response 200 (.value [])),
         .get (.noteTags "n1") (.response 200 (.value [])),
         .associate "t" "n1" (.response 409 (.value ()))]⟩ ∧
    ((main Char.toLower plainURL conflictBackend "token" "urgent" ["deadline"] 3 ()).map
        fun run => run.trace.countP associatedWithStatusOK) = some 0 ∧
    ((main Char.toLower plainURL (restBackend 409) "token" "urgent" ["deadline"] 5
        crowdedStoreTagged).map
        fun run => (run.result, run.trace.countP associatedWithStatusOK, run.state)) =
      some (.done 1, 0, crowdedStoreTagged) ∧
    (main Char.toLower plainURL (restBackend 409) "token" "Important Project"
        ["deadline", "project x"] 5 scenarioStore).map
        (fun run => (run.result, run.state.tags, run.state.links)) =
      some (.done 2, [⟨"new0", "Important Project"⟩], [("1", "new0"), ("3", "new0")]) := by
  refine ⟨by set_option maxRecDepth 8000 in decide, by set_option maxRecDepth 8000 in decide,
    by set_option maxRecDepth 8000 in decide, by set_option maxRecDepth 8000 in decide⟩

/-- Claim C8 fails on the code: `getNoteTags` makes a single request, without
a page number, and returns the tag ids of that one answer; for a note whose
tags lie on two pages (page 3 is the first empty one) it returns the id of
page 1 only, and the id on page 2 is missing from the set. -/
theorem C8_getNoteTags_reads_one_page :
    (∀ (σ : Type) (B : Backend σ) (s : σ) (noteID : String),
      (getNoteTags B s noteID).trace =
          [Event.get (.noteTags noteID) (B.get s (.noteTags noteID)).1] ∧
      ∀ items, (B.get s (.noteTags noteID)).1 = .response 200 (.value items) →
        (getNoteTags B s noteID).result = .ok (tagIDs items)) ∧
    pageOf crowdedStoreTagged.pageSize (crowdedStoreTagged.tagsOfNote "n1") 1 =
      [⟨"a", "other"⟩] ∧
    pageOf crowdedStoreTagged.pageSize (crowdedStoreTagged.tagsOfNote "n1") 2 =
      [⟨"t", "urgent"⟩] ∧
    pageOf crowdedStoreTagged.pageSize (crowdedStoreTagged.tagsOfNote "n1") 3 = [] ∧
    getNoteTags (restBackend 409) crowdedStoreTagged "n1" =
      ⟨.ok ["a"], crowdedStoreTagged,
        [.get (.noteTags "n1") (.response 200 (.value [tagItem ⟨"a", "other"⟩]))]⟩ ∧
    "t" ∉ ["a"] := by
  refine ⟨?_, by decide, by decide, by decide, by decide, by decide⟩
  intro σ B s noteID
  refine ⟨rfl, fun items h => ?_⟩
  simp only [getNoteTags]
  exact (getNoteTagsResult_ok_iff _ _ _).2 ⟨items, h, rfl⟩

/-- Claim C3 fails on the code: on a paginating backend whose note carries
another tag already, the first run attaches the target tag (count 1); the
second run, with the same inputs on the resulting state, sees only the first
page of the note's tags, issues the association request again and reports
count 1 instead of 0, whether the backend answers that request with 200 or
with 409.  It creates no tag and leaves tags and associations as they
were. -/
theorem C3_second_run_counts_again :
    (main Char.toLower plainURL (restBackend 200) "token" "urgent" ["deadline"] 5
        crowdedStore).map (fun run => (run.result, run.state)) =
      some (.done 1, crowdedStoreTagged) ∧
    main Char.toLower plainURL (restBackend 200) "token" "urgent" ["deadline"] 5
        crowdedStoreTagged =
      some ⟨.done 1, crowdedStoreTagged,
        [.get (.tagsPage 1) (.response 200 (.value [tagItem ⟨"a", "other"⟩])),
         .get (.tagsPage 2) (.response 200 (.value [tagItem ⟨"t", "urgent"⟩])),
         .get (.tagsPage 3) (.response 200 (.value [])),
         .get (.notesPage 1) (.response 200 (.value [noteItem ⟨"n1", "note", "the deadline"⟩])),
         .get (.notesPage 2) (.response 200 (.value [])),
         .get (.noteTags "n1") (.response 200 (.value [tagItem ⟨"a", "other"⟩])),
         .associate "t" "n1" (.response 200 (.value ()))]⟩ ∧
    (main Char.toLower plainURL (restBackend 409) "token" "urgent" ["deadline"] 5
        crowdedStore).map (fun run => (run.result, run.state)) =
      some (.done 1, crowdedStoreTagged) ∧
    (main Char.toLower plainURL (restBackend 409) "token" "urgent" ["deadline"] 5
        crowdedStoreTagged).map
        (fun run => (run.result, run.state, run.trace.getLast?)) =
      some (.done 1, crowdedStoreTagged,
        some (.associate "t" "n1" (.response 409 (.value ())))) := by
  refine ⟨by set_option maxRecDepth 8000 in decide, by set_option maxRecDepth 8000 in decide,
    by set_option maxRecDepth 8000 in decide, by set_option maxRecDepth 8000 in decide⟩

end JoplinTagger
